import Mathlib

/-!
Shallow embedding of the xc container process supervisor
(`src/xc/src/container/runner/mod.rs`) and of the host-entry data model
(`src/xc/src/models/network.rs`).

HashMaps are modelled as association lists (lookup returns the binding of
the first matching key; `ainsert` replaces, matching `HashMap::insert`).
Kernel-facing side effects (`kevent_ts` registrations) are recorded in an
append-only log. Panics (`unwrap` / `expect` on map lookups and untrusted
input) are modelled by `Option`: a `none` result of a handler means the
Rust code panics at that point.
-/

namespace XC

/-- Association-list lookup: the value bound to the first occurrence of key `k`. -/
def alookup {α β : Type} [DecidableEq α] (k : α) : List (α × β) → Option β
  | [] => none
  | (k', v) :: rest => if k' = k then some v else alookup k rest

/-- Remove every binding of key `k`. -/
def aerase {α β : Type} [DecidableEq α] (k : α) : List (α × β) → List (α × β)
  | [] => []
  | (k', v) :: rest => if k' = k then aerase k rest else (k', v) :: aerase k rest

/-- Insert-or-replace a binding, matching `HashMap::insert`. -/
def ainsert {α β : Type} [DecidableEq α] (k : α) (v : β) (m : List (α × β)) :
    List (α × β) :=
  (k, v) :: aerase k m

/-- Replace the value stored at key `k` (no effect when the key is absent);
models mutation through `get_mut`. -/
def aupdate {α β : Type} [DecidableEq α] (k : α) (v : β) : List (α × β) → List (α × β)
  | [] => []
  | (k', v') :: rest =>
    if k' = k then (k', v) :: aupdate k v rest else (k', v') :: aupdate k v rest

/-- Remove the first occurrence of `pid`, modelling
`position(|x| *x == pid)` followed by `remove(pos)`. -/
def removeFirst (pid : Nat) : List Nat → List Nat
  | [] => []
  | x :: rest => if x = pid then rest else x :: removeFirst pid rest

/-- Stdio wiring of a spawned process, from `StdioMode` in `models/exec`
as matched on in `spawn_process` (`runner/mod.rs:283-300`). -/
inductive StdioMode where
  | terminal : StdioMode
  | files (stdout : Option String) (stderr : Option String) : StdioMode
  | inherit : StdioMode
  | forward (stdin : Nat) (stdout : Nat) (stderr : Nat) : StdioMode
deriving Repr, DecidableEq

/-- Modelled from the spec: `ExecSpec` (`Jexec`), the description of one
process to run; the source of `models/exec.rs` is not in the repository
snapshot. Fields follow the spec's JSON schema — arg0, args, envs,
optional work_dir, output_mode, optional notify — with `notify` an
integer event-notification file descriptor. -/
structure Jexec where
  arg0 : String
  args : List String
  envs : List (String × String)
  work_dir : Option String
  output_mode : StdioMode
  notify : Option Nat
deriving Repr, DecidableEq

/-- Modelled from the spec: `SpawnInfo`, the observable result of a
successful spawn (kernel pid, pty path for Terminal mode, log paths);
its definition lives outside the snapshot in `container/process`. -/
structure SpawnInfo where
  pid : Nat
  pty_path : Option String
  log_paths : List String
deriving Repr, DecidableEq

/-- Modelled from the spec: the error kinds visible at the supervisor
boundary (spec section 7); `ExecError` itself lives in `container/error`,
outside the snapshot. Payloads of the wrapped underlying errors are
abstracted to numeric codes. -/
inductive ExecError where
  | executableNotFound : ExecError
  | missingLinuxKmod : ExecError
  | brandELFFailed (code : Nat) : ExecError
  | spawnIo (code : Nat) : ExecError
deriving Repr, DecidableEq

/-- True exactly on the stdio/spawn I/O failure kind. -/
def ExecError.isSpawnIo : ExecError → Bool
  | .spawnIo _ => true
  | _ => false

/-- Modelled from the spec: `ProcessStat`, the per-process state record
published over a watch channel (spec section 3); defined outside the
snapshot in `container/mod`. Monotonic flags. -/
structure ProcessStat where
  spec : Jexec
  spawn_info : Option SpawnInfo
  exit_code : Option Int
  tree_exited : Bool
deriving Repr, DecidableEq

/-- Fresh record holding only the spec, from `ProcessStat::new(exec)`. -/
def ProcessStat.new (exec : Jexec) : ProcessStat :=
  { spec := exec, spawn_info := none, exit_code := none, tree_exited := false }

/-- Record the spawn result, from `status.set_started(spawn_info)`. -/
def ProcessStat.set_started (st : ProcessStat) (si : SpawnInfo) : ProcessStat :=
  { st with spawn_info := some si }

/-- Record the direct child's exit code. -/
def ProcessStat.set_exited (st : ProcessStat) (code : Int) : ProcessStat :=
  { st with exit_code := some code }

/-- Record that the whole tree has exited. -/
def ProcessStat.set_tree_exited (st : ProcessStat) : ProcessStat :=
  { st with tree_exited := true }

/-- From `ProcessRunnerStat` (`runner/mod.rs:52-58`): one named process.
`process_stat` holds the current value of the watch `Sender`; `notified`
models whether `notify_waiters` has been called on the `EventFdNotify`
handle (the handle itself is abstracted to its file descriptor). -/
structure ProcessRunnerStat where
  id : String
  pid : Nat
  process_stat : ProcessStat
  notify : Option Nat
  notified : Bool
deriving Repr, DecidableEq

/-- From `ProcessRunnerStat::set_exited` (`runner/mod.rs:67-72`). -/
def ProcessRunnerStat.set_exited (st : ProcessRunnerStat) (code : Int) :
    ProcessRunnerStat :=
  { st with process_stat := st.process_stat.set_exited code }

/-- From `ProcessRunnerStat::set_tree_exited` (`runner/mod.rs:73-81`):
sets the tree-exited flag and fires the notify handle when present. -/
def ProcessRunnerStat.set_tree_exited (st : ProcessRunnerStat) : ProcessRunnerStat :=
  { st with process_stat := st.process_stat.set_tree_exited,
            notified := if st.notify.isSome then true else st.notified }

/-- From `HostEntry` in `src/xc/src/models/network.rs:154-158`; the
`IpAddr` is kept in its display form. -/
structure HostEntry where
  ip_addr : String
  hostname : String
deriving Repr, DecidableEq

/-- Modelled from the spec: the slice of `RunningContainer` the supervisor
reads (spec section 3); `container/running.rs` is outside the snapshot.
Notify handles are modelled by fired-flags. -/
structure RunningContainer where
  id : String
  root : String
  jid : Int
  linux : Bool
  init_norun : Bool
  main_norun : Bool
  deinit_norun : Bool
  persist : Bool
  init_proto : List Jexec
  main_proto : Option Jexec
  deinit_proto : List Jexec
  processes : List (String × ProcessStat)
  main_started_notified : Bool
  destroyed : Option Nat
deriving Repr, DecidableEq

/-- From `SerialExec` (`runner/mod.rs:116-123`): a serial execution
queue. `execs` is the `VecDeque` front-first. -/
structure SerialExec where
  base_id : String
  idx : Nat
  execs : List Jexec
  last_spawn : Option String
  activated : Bool
deriving Repr, DecidableEq

/-- From `SerialExec::new` (`runner/mod.rs:126-134`). -/
def SerialExec.new (base_id : String) (execs : List Jexec) (activated : Bool) :
    SerialExec :=
  { base_id := base_id, execs := execs, idx := 0, last_spawn := none,
    activated := activated }

/-- From `SerialExec::activate` (`runner/mod.rs:136-138`). -/
def SerialExec.activate (s : SerialExec) : SerialExec :=
  { s with activated := true }

/-- From `SerialExec::is_empty` (`runner/mod.rs:140-142`). -/
def SerialExec.is_empty (s : SerialExec) : Bool :=
  s.execs.isEmpty

/-- Mint the id for the element at the current index, `"<base>.<idx>"`. -/
def SerialExec.mint_id (s : SerialExec) : String :=
  s.base_id ++ "." ++ toString s.idx

/-- From `SerialExec::pop_front` (`runner/mod.rs:144-150`): on a
non-empty queue, pop the head, mint its id, set `last_spawn`, bump the
index; on an empty queue the early `?` return leaves the state unchanged. -/
def SerialExec.pop_front (s : SerialExec) : Option (String × Jexec) × SerialExec :=
  match s.execs with
  | [] => (none, s)
  | e :: rest =>
    (some (s.mint_id, e),
     { s with execs := rest, last_spawn := some s.mint_id, idx := s.idx + 1 })

/-- Shared body of the default arm of `try_drain_proc_queue`
(`runner/mod.rs:164-173`): when the queue is non-empty, pop the head,
mint its id, set `last_spawn`, append to the outgoing spawn queue and bump
the index. -/
def SerialExec.drainOne (s : SerialExec) (next : List (String × Jexec)) :
    SerialExec × List (String × Jexec) :=
  match s.execs with
  | [] => (s, next)
  | e :: rest =>
    ({ s with execs := rest, last_spawn := some s.mint_id, idx := s.idx + 1 },
     next ++ [(s.mint_id, e)])

/-- From `SerialExec::try_drain_proc_queue` (`runner/mod.rs:152-178`).
Returns the drained flag together with the updated queue and outgoing
spawn queue. The Rust `match` arms are reproduced in order: the guard
`last_spawn != id`, the guard `last_spawn == id && is_empty`, and the
default arm which dispatches when the queue is non-empty. -/
def SerialExec.try_drain_proc_queue (s : SerialExec) (id : String)
    (next_processes : List (String × Jexec)) :
    Bool × SerialExec × List (String × Jexec) :=
  if s.activated then
    match s.last_spawn with
    | some last_spawn =>
      if last_spawn ≠ id then (false, s, next_processes)
      else if s.is_empty then (true, s, next_processes)
      else
        let (s', next') := s.drainOne next_processes
        (false, s', next')
    | none =>
      let (s', next') := s.drainOne next_processes
      (false, s', next')
  else (false, s, next_processes)

/-- Record of a `kevent_ts` registration issued by the supervisor: an
exit-trace on a pid (`KEvent::from_trace_pid(pid, NOTE_EXIT)`) or a
one-shot timer (`KEvent::from_timer_seconds_oneshot(ident, seconds)`). -/
inductive KEventReg where
  | tracePid (pid : Nat) : KEventReg
  | timerOneshot (ident : Nat) (seconds : Nat) : KEventReg
deriving Repr, DecidableEq

/-- From `ProcessRunner` (`runner/mod.rs:84-112`). The kqueue descriptor
and the control-stream registry are host resources and are not part of
the modelled state; registrations on the kqueue are recorded in
`kevent_log`. `pmap` and `rpmap` are the `HashMap`s modelled as
association lists. -/
structure ProcessRunner where
  named_process : List ProcessRunnerStat
  pmap : List (Nat × Nat)
  rpmap : List (Nat × List Nat)
  started : Option Nat
  auto_start : Bool
  container : RunningContainer
  main_started : Bool
  main_exited : Bool
  spawn_queue : List (String × Jexec)
  inits : SerialExec
  deinits : SerialExec
  kevent_log : List KEventReg
deriving Repr, DecidableEq

/-- From `ProcessRunner::new` (`runner/mod.rs:353-369`). -/
def ProcessRunner.new (container : RunningContainer) (auto_start : Bool) :
    ProcessRunner :=
  { named_process := [], pmap := [], rpmap := [],
    main_started := false, spawn_queue := [],
    inits := SerialExec.new "init" container.init_proto (!container.init_norun),
    deinits := SerialExec.new "deinit" container.deinit_proto false,
    main_exited := false, container := container, started := none,
    auto_start := auto_start, kevent_log := [] }

/-- From `ProcessRunner::pid_ancestor` (`runner/mod.rs:333-339`): climb
`pmap` until no parent entry exists. The Rust `while let` loop is given
explicit fuel; on an acyclic map a fuel of `pmap.length + 1` performs
every possible step (on a cyclic map the Rust loop would diverge). -/
def pid_ancestorFuel (fuel : Nat) (pmap : List (Nat × Nat)) (pid : Nat) : Nat :=
  match fuel with
  | 0 => pid
  | fuel + 1 =>
    match alookup pid pmap with
    | none => pid
    | some parent => pid_ancestorFuel fuel pmap parent

/-- The ancestor climb at its canonical fuel. -/
def pid_ancestorMap (pmap : List (Nat × Nat)) (pid : Nat) : Nat :=
  pid_ancestorFuel (pmap.length + 1) pmap pid

/-- Registration of a fresh supervisor-spawned pid in the registry:
`self.rpmap.insert(pid, vec![pid])` as done by both `trace_process`
(`runner/mod.rs:205`) and `spawn_process` (`runner/mod.rs:326`). -/
def registerMaps (rpmap : List (Nat × List Nat)) (pid : Nat) :
    List (Nat × List Nat) :=
  ainsert pid [pid] rpmap

/-- The registry-map part of the NOTE_EXIT arm of `handle_pid_event`
(`runner/mod.rs:457-475`): compute the ancestor, drop the pid from
`pmap`, remove its first occurrence from the ancestor's `rpmap` list.
Returns the new maps, the ancestor and the descendant-gone flag; `none`
models the panic of `self.rpmap.get_mut(&ancestor).unwrap()`. -/
def noteExitMaps (pmap : List (Nat × Nat)) (rpmap : List (Nat × List Nat))
    (pid : Nat) :
    Option ((List (Nat × Nat)) × (List (Nat × List Nat)) × Nat × Bool) :=
  let ancestor := pid_ancestorMap pmap pid
  let pmap' := aerase pid pmap
  match alookup ancestor rpmap with
  | none => none
  | some descentdant =>
    let descentdant' := removeFirst pid descentdant
    some (pmap', aupdate ancestor descentdant' rpmap, ancestor,
          descentdant'.isEmpty)

/-- The registry-map part of the NOTE_CHILD arm of `handle_pid_event`
(`runner/mod.rs:526-533`): flatten the new child directly onto the
ancestor in `pmap` and append it to the ancestor's `rpmap` list; `none`
models the panic of `.expect("cannot find ancestor")`. -/
def noteChildMaps (pmap : List (Nat × Nat)) (rpmap : List (Nat × List Nat))
    (parent pid : Nat) :
    Option ((List (Nat × Nat)) × (List (Nat × List Nat))) :=
  let ancestor := pid_ancestorMap pmap parent
  let pmap' := ainsert pid ancestor pmap
  match alookup ancestor rpmap with
  | none => none
  | some v => some (pmap', aupdate ancestor (v ++ [pid]) rpmap)

/-- From `ProcessRunner::trace_process` (`runner/mod.rs:190-208`):
register an externally spawned named process and arm the NOTE_EXIT
trace. -/
def ProcessRunner.trace_process (s : ProcessRunner) (id : String) (pid : Nat)
    (stat : ProcessStat) (notify : Option Nat) : ProcessRunner :=
  { s with
    named_process := s.named_process ++
      [{ id := id, pid := pid, process_stat := stat, notify := notify,
         notified := false }],
    rpmap := registerMaps s.rpmap pid,
    kevent_log := s.kevent_log ++ [.tracePid pid] }

deriving instance DecidableEq for Except

/-- Outcome of one call of the resolver/kmod/branding/stdio environment
that `spawn_process` consults: the host-filesystem and kernel facts that
determine its result. -/
structure SpawnEnv where
  find_exec : Option String
  exists_kld_linux : Bool
  exists_kld_linux64 : Bool
  brand_elf : Except Nat Unit
  spawn_io : Except Nat SpawnInfo
deriving Repr, DecidableEq

/-- Result of a `spawn_process` call: the updated supervisor, the
returned `Result`, whether the supplied notify handle was fired during
the call, and the final value of the `ProcessStat` channel created by the
call (`none` when the call failed before creating it). -/
structure SpawnOutcome where
  runner : ProcessRunner
  result : Except ExecError SpawnInfo
  notified : Bool
  stat : Option ProcessStat
deriving Repr, DecidableEq

/-- From `ProcessRunner::spawn_process` (`runner/mod.rs:246-331`), in
source order: resolve the executable (`ExecutableNotFound` on failure),
create the `ProcessStat` channel, check the Linux kmod and brand the ELF
when the container is Linux-flagged, launch per stdio mode; on a launch
error fire the notify (when given) and return the error; on success
publish the spawn info, record the named process, seed `rpmap` and arm
the NOTE_EXIT trace. -/
def ProcessRunner.spawn_process (s : ProcessRunner) (env : SpawnEnv)
    (id : String) (exec : Jexec) (notify : Option Nat) : SpawnOutcome :=
  match env.find_exec with
  | none =>
    { runner := s, result := .error .executableNotFound, notified := false,
      stat := none }
  | some _path =>
    let stat0 := ProcessStat.new exec
    if s.container.linux ∧ ¬env.exists_kld_linux ∧ ¬env.exists_kld_linux64 then
      { runner := s, result := .error .missingLinuxKmod, notified := false,
        stat := some stat0 }
    else
      match (if s.container.linux then env.brand_elf else .ok ()) with
      | .error e =>
        { runner := s, result := .error (.brandELFFailed e), notified := false,
          stat := some stat0 }
      | .ok _ =>
        match env.spawn_io with
        | .error e =>
          { runner := s, result := .error (.spawnIo e),
            notified := notify.isSome, stat := some stat0 }
        | .ok spawn_info =>
          let stat1 := stat0.set_started spawn_info
          let rstat : ProcessRunnerStat :=
            { pid := spawn_info.pid, id := id, process_stat := stat1,
              notify := notify, notified := false }
          { runner :=
              { s with
                container :=
                  { s.container with
                    processes := ainsert id stat1 s.container.processes },
                named_process := s.named_process ++ [rstat],
                rpmap := registerMaps s.rpmap spawn_info.pid,
                kevent_log := s.kevent_log ++ [.tracePid spawn_info.pid] },
            result := .ok spawn_info, notified := false, stat := some stat1 }

/-- From `ProcessRunner::run_main` (`runner/mod.rs:371-376`): enqueue the
main prototype as `"main"` when it is set. -/
def ProcessRunner.run_main (s : ProcessRunner) : ProcessRunner :=
  match s.container.main_proto with
  | some main => { s with spawn_queue := s.spawn_queue ++ [("main", main)] }
  | none => s

/-- From `ProcessRunner::start` (`runner/mod.rs:435-452`): on the first
call record the epoch seconds, then either enqueue main (empty init
queue, main not suppressed) or pop, activate and directly spawn the first
init spec; later calls only log an error and change nothing. `now` is the
sampled system clock, `env` the spawn environment of the direct spawn. -/
def ProcessRunner.start (s : ProcessRunner) (env : SpawnEnv) (now : Nat) :
    ProcessRunner :=
  if s.started.isNone then
    let s := { s with started := some now }
    if s.inits.is_empty ∧ ¬s.container.main_norun then
      s.run_main
    else
      match s.inits.pop_front with
      | (some (id, jexec), inits') =>
        let s := { s with inits := inits'.activate }
        (s.spawn_process env id jexec none).runner
      | (none, _) => s
  else s

/-- Status and body of a control-protocol response frame. -/
inductive RespBody where
  | null : RespBody
  | spawnInfo (si : SpawnInfo) : RespBody
  | failMessage (msg : String) : RespBody
deriving Repr, DecidableEq

/-- POSIX EIO as used by `freebsd::libc::EIO` in the exec failure
response. -/
def eioErrno : Int := 5

/-- From the `"exec"` arm of `handle_control_stream_cmd`
(`runner/mod.rs:382-402`). `parsed` is the outcome of
`serde_json::from_value(request.data)`; `gen_id` the freshly generated
id. `none` models a panic: the code unwraps both the parse result and
`jexec.notify`. -/
def ProcessRunner.handle_exec (s : ProcessRunner) (env : SpawnEnv)
    (gen_id : String) (parsed : Option Jexec) :
    Option (ProcessRunner × Int × RespBody) :=
  match parsed with
  | none => none
  | some jexec =>
    match jexec.notify with
    | none => none
    | some fd =>
      let out := s.spawn_process env gen_id jexec (some fd)
      match out.result with
      | .ok spawn_info => some (out.runner, 0, .spawnInfo spawn_info)
      | .error _ => some (out.runner, eioErrno, .failMessage "failed to spawn")

/-- From the `"run_main"` arm of `handle_control_stream_cmd`
(`runner/mod.rs:403-409`): when `main_proto` is set the prototype is
enqueued and — as written — no response is sent; the `0`/null response is
sent only in the `else` branch, when `main_proto` is unset. -/
def ProcessRunner.handle_run_main (s : ProcessRunner) :
    ProcessRunner × Option (Int × RespBody) :=
  match s.container.main_proto with
  | some main =>
    ({ s with spawn_queue := s.spawn_queue ++ [("main", main)] }, none)
  | none => (s, some (0, .null))

/-- Host-filesystem facts consulted by the `"write_hosts"` arm: the
outcome of `realpath(container.root, "/etc/hosts")` and whether the
truncate-or-create open succeeded. -/
structure HostsFs where
  realpath_etc_hosts : Option String
  open_ok : Bool
deriving Repr, DecidableEq

/-- The lines written to `/etc/hosts` by `write_hosts`
(`runner/mod.rs:423-427`): the two fixed localhost lines followed by one
line per supplied entry, each element being the argument of one
`writeln!` (the file stores each with a trailing newline). -/
def hostsLines (entries : List HostEntry) : List String :=
  "::1 localhost" :: "127.0.0.1 localhost" ::
    entries.map (fun e => e.ip_addr ++ " " ++ e.hostname)

/-- From the `"write_hosts"` arm of `handle_control_stream_cmd`
(`runner/mod.rs:414-432`): when path resolution and the open succeed the
file content is replaced by `hostsLines`; otherwise it is untouched
(`none`). The `0`/null response is sent in every case. -/
def handle_write_hosts (fs : HostsFs) (entries : List HostEntry) :
    Option (List String) × Int × RespBody :=
  let content :=
    match fs.realpath_etc_hosts with
    | some _ => if fs.open_ok then some (hostsLines entries) else none
    | none => none
  (content, 0, .null)

/-- A proc-filter kevent as consumed by `handle_pid_event`: the
`NOTE_EXIT` / `NOTE_CHILD` filter flags, the pid (`ident`) and the data
word (exit status for NOTE_EXIT, parent pid for NOTE_CHILD). -/
structure PidEvent where
  note_exit : Bool
  note_child : Bool
  ident : Nat
  data : Int
deriving Repr, DecidableEq

/-- Accumulator threaded through the `for stat in self.named_process`
loop of the NOTE_EXIT arm (`runner/mod.rs:477-524`): the processed
stats, and the supervisor fields the loop body mutates. -/
structure ExitScan where
  stats : List ProcessRunnerStat
  spawn_queue : List (String × Jexec)
  inits : SerialExec
  deinits : SerialExec
  main_exited : Bool
  last_deinit : Option String
  klog : List KEventReg
deriving Repr, DecidableEq

/-- Phase 1 of the loop body (`runner/mod.rs:479-502`), executed when the
exiting pid is the direct child (`ancestor == pid`): record the exit
code, reap, drain the init queue (enqueueing main when it reports drained
and main is not suppressed), drain the deinit queue (recording
`last_deinit` and arming the 15-second one-shot timer with ident 1486
when it reports drained). -/
def exitScanPhase1 (container : RunningContainer) (code : Int)
    (acc : ExitScan) (stat : ProcessRunnerStat) :
    ProcessRunnerStat × ExitScan :=
  let stat := stat.set_exited code
  let (drained_i, inits', sq) :=
    acc.inits.try_drain_proc_queue stat.id acc.spawn_queue
  let sq :=
    if drained_i ∧ ¬container.main_norun then
      match container.main_proto with
      | some main => sq ++ [("main", main)]
      | none => sq
    else sq
  let (drained_d, deinits', sq) := acc.deinits.try_drain_proc_queue stat.id sq
  let (ld, klog) :=
    if drained_d then
      (deinits'.last_spawn, acc.klog ++ [.timerOneshot 1486 15])
    else (acc.last_deinit, acc.klog)
  (stat, { acc with spawn_queue := sq, inits := inits', deinits := deinits',
                    last_deinit := ld, klog := klog })

/-- Phase 2 of the loop body (`runner/mod.rs:504-521`), executed when the
whole tree is gone: set the tree-exited flag (firing the notify), then
apply the main-exit rule (break, or activate and drain the deinit queue)
or the last-deinit rule. When the tree is not yet gone the stat is kept
as updated by phase 1. -/
def exitScanPhase2 (container : RunningContainer) (gone : Bool)
    (acc : ExitScan) (stat : ProcessRunnerStat) : ExitScan × Bool :=
  if gone then
    let stat := stat.set_tree_exited
    if stat.id = "main" then
      let acc := { acc with main_exited := true }
      if (container.deinit_norun ∨ acc.deinits.is_empty) ∧ ¬container.persist then
        ({ acc with stats := acc.stats ++ [stat] }, true)
      else
        let deinits' := acc.deinits.activate
        let (_, deinits', sq) := deinits'.try_drain_proc_queue "" acc.spawn_queue
        ({ acc with stats := acc.stats ++ [stat], deinits := deinits',
                    spawn_queue := sq }, false)
    else
      match acc.last_deinit with
      | some ld =>
        if ld = stat.id then ({ acc with stats := acc.stats ++ [stat] }, true)
        else ({ acc with stats := acc.stats ++ [stat] }, false)
      | none => ({ acc with stats := acc.stats ++ [stat] }, false)
  else ({ acc with stats := acc.stats ++ [stat] }, false)

/-- One iteration of the `for stat in self.named_process` loop body
(`runner/mod.rs:478-523`) on `stat`: phase 1 runs when `ancestor == pid`,
phase 2 when `descentdant_gone`; the returned flag is `true` when the
body executed `return true` (breaking the event loop). -/
def exitScanStep (container : RunningContainer) (ancestor pid : Nat)
    (code : Int) (gone : Bool) (acc : ExitScan) (stat : ProcessRunnerStat) :
    ExitScan × Bool :=
  if stat.pid = ancestor then
    let (stat, acc) :=
      if ancestor = pid then exitScanPhase1 container code acc stat
      else (stat, acc)
    exitScanPhase2 container gone acc stat
  else ({ acc with stats := acc.stats ++ [stat] }, false)

/-- The whole `for` loop: iterate `exitScanStep`; on `return true` the
remaining stats are kept unchanged and the break flag is reported. -/
def exitScan (container : RunningContainer) (ancestor pid : Nat) (code : Int)
    (gone : Bool) : List ProcessRunnerStat → ExitScan → ExitScan × Bool
  | [], acc => (acc, false)
  | stat :: rest, acc =>
    let (acc', brk) := exitScanStep container ancestor pid code gone acc stat
    if brk then ({ acc' with stats := acc'.stats ++ rest }, true)
    else exitScan container ancestor pid code gone rest acc'

/-- From `ProcessRunner::handle_pid_event` (`runner/mod.rs:454-536`).
Returns `none` when the code panics (missing `rpmap` entry for the
computed ancestor, in either the NOTE_EXIT or the NOTE_CHILD arm);
otherwise the updated supervisor, the updated `last_deinit` out-parameter
and the returned break flag. -/
def ProcessRunner.handle_pid_event (s : ProcessRunner) (ev : PidEvent)
    (last_deinit : Option String) :
    Option (ProcessRunner × Option String × Bool) :=
  if ev.note_exit then
    let pid := ev.ident
    match noteExitMaps s.pmap s.rpmap pid with
    | none => none
    | some (pmap', rpmap', ancestor, gone) =>
      if ancestor = pid ∨ gone then
        let acc0 : ExitScan :=
          { stats := [], spawn_queue := s.spawn_queue, inits := s.inits,
            deinits := s.deinits, main_exited := s.main_exited,
            last_deinit := last_deinit, klog := s.kevent_log }
        let (acc, brk) :=
          exitScan s.container ancestor pid ev.data gone s.named_process acc0
        some ({ s with pmap := pmap', rpmap := rpmap',
                       named_process := acc.stats,
                       spawn_queue := acc.spawn_queue, inits := acc.inits,
                       deinits := acc.deinits, main_exited := acc.main_exited,
                       kevent_log := acc.klog },
              acc.last_deinit, brk)
      else
        some ({ s with pmap := pmap', rpmap := rpmap' }, last_deinit, false)
  else if ev.note_child then
    match noteChildMaps s.pmap s.rpmap ev.data.toNat ev.ident with
    | none => none
    | some (pmap', rpmap') =>
      some ({ s with pmap := pmap', rpmap := rpmap' }, last_deinit, false)
  else
    some (s, last_deinit, false)

/-- A kevent as classified by the dispatch `match` of the event loop
(`runner/mod.rs:579-621`), by filter. Control-socket readable events
delegate to the stream decoder and the per-method handlers, which are
modelled separately (`handle_exec`, `handle_run_main`,
`handle_write_hosts`, `start`). -/
inductive LoopEvent where
  | proc (ev : PidEvent) : LoopEvent
  | timer : LoopEvent
  | user : LoopEvent
  | other : LoopEvent
deriving Repr, DecidableEq

/-- The per-event dispatch of the event loop (`runner/mod.rs:579-621`):
a proc event goes to `handle_pid_event` (whose `true` breaks the loop), a
timer event breaks the loop (the only timer is the deinit grace
deadline), the user kill event breaks when deinit is suppressed or empty
and otherwise activates and drains the deinit queue, and any other filter
is ignored. The returned flag is `true` when the loop breaks. -/
def dispatch_event (s : ProcessRunner) (last_deinit : Option String) :
    LoopEvent → Option (ProcessRunner × Option String × Bool)
  | .proc ev => s.handle_pid_event ev last_deinit
  | .timer => some (s, last_deinit, true)
  | .user =>
    if s.container.deinit_norun ∨ s.deinits.is_empty then
      some (s, last_deinit, true)
    else
      let deinits' := s.deinits.activate
      let (_, deinits', sq) := deinits'.try_drain_proc_queue "" s.spawn_queue
      some ({ s with deinits := deinits', spawn_queue := sq }, last_deinit, false)
  | .other => some (s, last_deinit, false)

/-- The registry maps in isolation: `pmap` and `rpmap` of the
supervisor. -/
structure Registry where
  pmap : List (Nat × Nat)
  rpmap : List (Nat × List Nat)
deriving Repr, DecidableEq

/-- The registry mutations performed by the supervisor: registration of a
newly spawned named pid (`trace_process` / `spawn_process`), NOTE_CHILD
handling and NOTE_EXIT removal. -/
inductive RegistryOp where
  | register (pid : Nat) : RegistryOp
  | child (parent pid : Nat) : RegistryOp
  | exit (pid : Nat) : RegistryOp
deriving Repr, DecidableEq

/-- Apply one registry mutation, reusing the exact map transformers of
the supervisor code (`registerMaps`, `noteChildMaps`, `noteExitMaps`);
`none` models the panics on a missing ancestor entry. -/
def Registry.apply (r : Registry) : RegistryOp → Option Registry
  | .register pid => some { r with rpmap := registerMaps r.rpmap pid }
  | .child parent pid =>
    match noteChildMaps r.pmap r.rpmap parent pid with
    | none => none
    | some (pmap', rpmap') => some { pmap := pmap', rpmap := rpmap' }
  | .exit pid =>
    match noteExitMaps r.pmap r.rpmap pid with
    | none => none
    | some (pmap', rpmap', _, _) => some { pmap := pmap', rpmap := rpmap' }

/-- Kernel-side guarantees under which an event is delivered: a
registered pid is fresh (tracked nowhere), a NOTE_CHILD pid is a freshly
forked process (no `pmap` entry, no `rpmap` key, member of no tree list)
whose parent's ancestor is tracked, and a NOTE_EXIT pid has a tracked
ancestor (otherwise the code panics, see the NOTE_EXIT `unwrap`). -/
def WfOp (r : Registry) : RegistryOp → Prop
  | .register pid =>
    alookup pid r.pmap = none ∧
    (∀ a l, alookup a r.rpmap = some l → pid ∉ l)
  | .child parent pid =>
    alookup pid r.pmap = none ∧
    alookup pid r.rpmap = none ∧
    (∀ a l, alookup a r.rpmap = some l → pid ∉ l) ∧
    (alookup (pid_ancestorMap r.pmap parent) r.rpmap).isSome
  | .exit pid =>
    (alookup (pid_ancestorMap r.pmap pid) r.rpmap).isSome

/-- The registry well-formedness invariant: `pmap` chains are flattened
(length at most one and always landing on an `rpmap` key), every member
of a tree list is the ancestor itself or maps to it directly, tree lists
are duplicate-free, and no pid belongs to two tree lists. -/
structure Registry.Inv (r : Registry) : Prop where
  flat : ∀ p a, alookup p r.pmap = some a → alookup a r.pmap = none
  anc_key : ∀ p a, alookup p r.pmap = some a → (alookup a r.rpmap).isSome
  mem : ∀ a l p, alookup a r.rpmap = some l → p ∈ l →
    p = a ∨ alookup p r.pmap = some a
  nodup : ∀ a l, alookup a r.rpmap = some l → l.Nodup
  cross : ∀ a b l m p, alookup a r.rpmap = some l → alookup b r.rpmap = some m →
    p ∈ l → p ∈ m → a = b

/-- Registry states reachable from the empty registry through
well-formed events. -/
inductive Registry.Reachable : Registry → Prop where
  | init : Registry.Reachable { pmap := [], rpmap := [] }
  | step {r r' : Registry} {op : RegistryOp} : Registry.Reachable r →
      WfOp r op → r.apply op = some r' → Registry.Reachable r'

/-- Concrete exec spec used by the witness evaluations. -/
def jexec0 : Jexec :=
  { arg0 := "/bin/sh", args := ["-c", "true"], envs := [],
    work_dir := none, output_mode := .inherit, notify := none }

/-- Concrete exec spec carrying a notify descriptor. -/
def jexec1 : Jexec := { jexec0 with notify := some 3 }

/-- Concrete container fixture with a main prototype. -/
def container0 : RunningContainer :=
  { id := "ct0", root := "/jails/ct0", jid := 7, linux := false,
    init_norun := false, main_norun := false, deinit_norun := false,
    persist := false, init_proto := [], main_proto := some jexec0,
    deinit_proto := [], processes := [], main_started_notified := false,
    destroyed := none }

/-- Freshly constructed supervisor over `container0`. -/
def runner0 : ProcessRunner := ProcessRunner.new container0 false

/-- Spawn environment where the executable resolves and the spawn
succeeds with pid 100. -/
def envOk : SpawnEnv :=
  { find_exec := some "/jails/ct0/bin/sh", exists_kld_linux := false,
    exists_kld_linux64 := false, brand_elf := .ok (),
    spawn_io := .ok { pid := 100, pty_path := none, log_paths := [] } }

/-- Spawn environment where the executable does not resolve. -/
def envNotFound : SpawnEnv := { envOk with find_exec := none }

/-- Concrete named main process with pid 5. -/
def statMain : ProcessRunnerStat :=
  { id := "main", pid := 5, process_stat := ProcessStat.new jexec0,
    notify := none, notified := false }

/-- Container fixture with `persist = true` and one deinit spec. -/
def containerPersist : RunningContainer :=
  { container0 with persist := true, deinit_proto := [jexec0] }

/-- Supervisor fixture in the running-main phase of `containerPersist`:
main (pid 5) is the only tracked process and the deinit queue is still
dormant. -/
def runnerPersist : ProcessRunner :=
  { named_process := [statMain], pmap := [], rpmap := [(5, [5])],
    started := some 1, auto_start := false, container := containerPersist,
    main_started := true, main_exited := false, spawn_queue := [],
    inits := SerialExec.new "init" [] true,
    deinits := SerialExec.new "deinit" [jexec0] false, kevent_log := [] }

/-- NOTE_EXIT event for pid 5 with exit status 0. -/
def evMainExit : PidEvent :=
  { note_exit := true, note_child := false, ident := 5, data := 0 }

/-- NOTE_EXIT event for the untracked pid 42. -/
def evUntracked : PidEvent :=
  { note_exit := true, note_child := false, ident := 42, data := 0 }

/-- Concrete last deinit process (pid 9) for the grace-timer witness. -/
def statDeinit : ProcessRunnerStat :=
  { id := "deinit.0", pid := 9, process_stat := ProcessStat.new jexec0,
    notify := none, notified := false }

/-- Exit-scan accumulator in which the deinit queue has dispatched its
only element and is activated with `last_spawn = "deinit.0"`. -/
def accDeinit : ExitScan :=
  { stats := [], spawn_queue := [],
    inits := SerialExec.new "init" [] true,
    deinits := { base_id := "deinit", idx := 1, execs := [],
                 last_spawn := some "deinit.0", activated := true },
    main_exited := true, last_deinit := none, klog := [] }

/-- Supervisor state after `runnerPersist` handles the main NOTE_EXIT:
main tree-exited, deinit queue activated with its first element
dispatched. -/
def runnerPersistAfter : ProcessRunner :=
  { named_process :=
      [{ id := "main", pid := 5,
         process_stat := { spec := jexec0, spawn_info := none,
                           exit_code := some 0, tree_exited := true },
         notify := none, notified := false }],
    pmap := [], rpmap := [(5, [])], started := some 1, auto_start := false,
    container := containerPersist, main_started := true, main_exited := true,
    spawn_queue := [("deinit.0", jexec0)],
    inits := SerialExec.new "init" [] true,
    deinits := { base_id := "deinit", idx := 1, execs := [],
                 last_spawn := some "deinit.0", activated := true },
    kevent_log := [] }

theorem alookup_aerase_self {α β : Type} [DecidableEq α] (k : α) (m : List (α × β)) :
    alookup k (aerase k m) = none := by
  induction m with
  | nil => rfl
  | cons p rest ih =>
    obtain ⟨k', v'⟩ := p
    by_cases h : k' = k <;> simp [aerase, alookup, h, ih]

theorem alookup_aerase_ne {α β : Type} [DecidableEq α] {k j : α} (m : List (α × β))
    (h : j ≠ k) : alookup j (aerase k m) = alookup j m := by
  induction m with
  | nil => rfl
  | cons p rest ih =>
    obtain ⟨k', v'⟩ := p
    have hkj : ¬ k = j := fun hc => h hc.symm
    by_cases hk : k' = k
    · simp [aerase, alookup, hk, hkj, ih]
    · by_cases hj : k' = j <;> simp [aerase, alookup, hk, hj, h, ih]

theorem alookup_ainsert_self {α β : Type} [DecidableEq α] (k : α) (v : β)
    (m : List (α × β)) : alookup k (ainsert k v m) = some v := by
  simp [ainsert, alookup]

theorem alookup_ainsert_ne {α β : Type} [DecidableEq α] {k j : α} (v : β)
    (m : List (α × β)) (h : j ≠ k) : alookup j (ainsert k v m) = alookup j m := by
  have hkj : ¬ k = j := fun hc => h hc.symm
  simp [ainsert, alookup, hkj, alookup_aerase_ne m h]

theorem alookup_aupdate_self {α β : Type} [DecidableEq α] (k : α) (v : β)
    (m : List (α × β)) :
    alookup k (aupdate k v m) = (alookup k m).map (fun _ => v) := by
  induction m with
  | nil => rfl
  | cons p rest ih =>
    obtain ⟨k', v'⟩ := p
    by_cases h : k' = k <;> simp [aupdate, alookup, h, ih]

theorem alookup_aupdate_ne {α β : Type} [DecidableEq α] {k j : α} (v : β)
    (m : List (α × β)) (h : j ≠ k) : alookup j (aupdate k v m) = alookup j m := by
  induction m with
  | nil => rfl
  | cons p rest ih =>
    obtain ⟨k', v'⟩ := p
    have hkj : ¬ k = j := fun hc => h hc.symm
    by_cases hk : k' = k
    · simp [aupdate, alookup, hk, hkj, ih]
    · by_cases hj : k' = j <;> simp [aupdate, alookup, hk, hj, h, ih]

theorem removeFirst_subset {pid : Nat} {l : List Nat} {p : Nat}
    (h : p ∈ removeFirst pid l) : p ∈ l := by
  induction l with
  | nil => simp [removeFirst] at h
  | cons x rest ih =>
    by_cases hx : x = pid
    · simp only [removeFirst, hx, if_true] at h
      exact List.mem_cons_of_mem _ h
    · simp only [removeFirst, hx, if_false, List.mem_cons] at h
      rcases h with h | h
      · simp [h]
      · exact List.mem_cons_of_mem _ (ih h)

theorem removeFirst_sublist (pid : Nat) (l : List Nat) :
    (removeFirst pid l).Sublist l := by
  induction l with
  | nil => simp [removeFirst]
  | cons x rest ih =>
    by_cases hx : x = pid
    · subst hx
      simp only [removeFirst, if_true]
      exact List.sublist_cons_self x rest
    · simp only [removeFirst, hx, if_false]
      exact List.Sublist.cons₂ x ih

theorem removeFirst_nodup {pid : Nat} {l : List Nat} (h : l.Nodup) :
    (removeFirst pid l).Nodup :=
  (removeFirst_sublist pid l).nodup h

theorem not_mem_removeFirst_self {pid : Nat} {l : List Nat} (h : l.Nodup) :
    pid ∉ removeFirst pid l := by
  induction l with
  | nil => simp [removeFirst]
  | cons x rest ih =>
    by_cases hx : x = pid
    · simp [removeFirst, hx]
      subst hx
      exact (List.nodup_cons.mp h).1
    · simp [removeFirst, hx]
      refine ⟨fun hc => hx hc.symm, ih (List.nodup_cons.mp h).2⟩

theorem pid_ancestorFuel_of_none {pm : List (Nat × Nat)} {p : Nat}
    (h : alookup p pm = none) : ∀ fuel, pid_ancestorFuel fuel pm p = p
  | 0 => rfl
  | fuel + 1 => by simp [pid_ancestorFuel, h]

theorem pid_ancestorFuel_flat {pm : List (Nat × Nat)}
    (hflat : ∀ p a, alookup p pm = some a → alookup a pm = none)
    (p : Nat) {fuel : Nat} (hf : 1 ≤ fuel) :
    pid_ancestorFuel fuel pm p =
      (match alookup p pm with | some a => a | none => p) := by
  obtain ⟨f, rfl⟩ : ∃ f, fuel = f + 1 := ⟨fuel - 1, by omega⟩
  cases hp : alookup p pm with
  | none => simp [pid_ancestorFuel, hp]
  | some a => simp [pid_ancestorFuel, hp, pid_ancestorFuel_of_none (hflat p a hp)]

theorem pid_ancestorMap_flat {pm : List (Nat × Nat)}
    (hflat : ∀ p a, alookup p pm = some a → alookup a pm = none) (p : Nat) :
    pid_ancestorMap pm p =
      (match alookup p pm with | some a => a | none => p) :=
  pid_ancestorFuel_flat hflat p (by omega)

theorem alookup_anc_none {pm : List (Nat × Nat)}
    (hflat : ∀ p a, alookup p pm = some a → alookup a pm = none) (p : Nat) :
    alookup (pid_ancestorMap pm p) pm = none := by
  rw [pid_ancestorMap_flat hflat]
  cases hp : alookup p pm with
  | none => simpa using hp
  | some a => simpa using hflat p a hp

theorem alookup_aupdate_isSome {α β : Type} [DecidableEq α] (k j : α) (v : β)
    (m : List (α × β)) :
    (alookup k (aupdate j v m)).isSome = (alookup k m).isSome := by
  by_cases h : k = j
  · subst h
    rw [alookup_aupdate_self]
    cases alookup k m <;> rfl
  · rw [alookup_aupdate_ne v m h]

theorem inv_register {r : Registry} (hinv : r.Inv) {pid : Nat}
    (hw : WfOp r (.register pid)) :
    Registry.Inv { r with rpmap := registerMaps r.rpmap pid } := by
  obtain ⟨hpm, hlists⟩ := hw
  constructor
  · exact hinv.flat
  · intro p a h
    by_cases ha : a = pid
    · subst ha
      simp [registerMaps, alookup_ainsert_self]
    · rw [registerMaps, alookup_ainsert_ne _ _ ha]
      exact hinv.anc_key p a h
  · intro a l p hl hp
    by_cases ha : a = pid
    · subst ha
      rw [registerMaps, alookup_ainsert_self] at hl
      injection hl with hl2
      subst hl2
      simp at hp
      left
      exact hp
    · rw [registerMaps, alookup_ainsert_ne _ _ ha] at hl
      exact hinv.mem a l p hl hp
  · intro a l hl
    by_cases ha : a = pid
    · subst ha
      rw [registerMaps, alookup_ainsert_self] at hl
      injection hl with hl2
      subst hl2
      simp
    · rw [registerMaps, alookup_ainsert_ne _ _ ha] at hl
      exact hinv.nodup a l hl
  · intro a b l m p hl hm hpl hpm2
    by_cases ha : a = pid <;> by_cases hb : b = pid
    · rw [ha, hb]
    · subst ha
      rw [registerMaps, alookup_ainsert_self] at hl
      injection hl with hl2
      subst hl2
      simp at hpl
      subst hpl
      rw [registerMaps, alookup_ainsert_ne _ _ hb] at hm
      exact absurd hpm2 (hlists b m hm)
    · subst hb
      rw [registerMaps, alookup_ainsert_self] at hm
      injection hm with hm2
      subst hm2
      simp at hpm2
      subst hpm2
      rw [registerMaps, alookup_ainsert_ne _ _ ha] at hl
      exact absurd hpl (hlists a l hl)
    · rw [registerMaps, alookup_ainsert_ne _ _ ha] at hl
      rw [registerMaps, alookup_ainsert_ne _ _ hb] at hm
      exact hinv.cross a b l m p hl hm hpl hpm2

theorem inv_child {r : Registry} (hinv : r.Inv) {parent pid : Nat}
    (hw : WfOp r (.child parent pid)) {r' : Registry}
    (happ : r.apply (.child parent pid) = some r') : r'.Inv := by
  obtain ⟨hpm, hkey, hlists, hanc⟩ := hw
  set anc := pid_ancestorMap r.pmap parent with hancdef
  obtain ⟨v, hv⟩ : ∃ v, alookup anc r.rpmap = some v := by
    cases hx : alookup anc r.rpmap with
    | none => rw [hx] at hanc; simp at hanc
    | some v => exact ⟨v, rfl⟩
  have hr' : r' = { pmap := ainsert pid anc r.pmap,
                    rpmap := aupdate anc (v ++ [pid]) r.rpmap } := by
    simp only [Registry.apply, noteChildMaps, ← hancdef, hv] at happ
    exact (Option.some.inj happ).symm
  subst hr'
  have hanc_ne_pid : anc ≠ pid := by
    intro hc
    rw [hc, hkey] at hv
    exact Option.noConfusion hv
  have hanc_pm : alookup anc r.pmap = none := alookup_anc_none hinv.flat parent
  have htarget : ∀ q b, alookup q r.pmap = some b → b ≠ pid := by
    intro q b hq hc
    have h2 := hinv.anc_key q b hq
    rw [hc, hkey] at h2
    simp at h2
  constructor
  · intro p a h
    by_cases hp : p = pid
    · subst hp
      rw [alookup_ainsert_self] at h
      injection h with h2
      subst h2
      rw [alookup_ainsert_ne _ _ hanc_ne_pid]
      exact hanc_pm
    · rw [alookup_ainsert_ne _ _ hp] at h
      have hane : a ≠ pid := htarget p a h
      rw [alookup_ainsert_ne _ _ hane]
      exact hinv.flat p a h
  · intro p a h
    by_cases hp : p = pid
    · subst hp
      rw [alookup_ainsert_self] at h
      injection h with h2
      subst h2
      rw [alookup_aupdate_isSome, hv]
      rfl
    · rw [alookup_ainsert_ne _ _ hp] at h
      rw [alookup_aupdate_isSome]
      exact hinv.anc_key p a h
  · intro a l p hl hp
    by_cases ha : a = anc
    · subst ha
      rw [alookup_aupdate_self, hv] at hl
      injection hl with hl2
      subst hl2
      rw [List.mem_append] at hp
      rcases hp with hp | hp
      · rcases hinv.mem anc v p hv hp with hcase | hcase
        · left; exact hcase
        · right
          have hpne : p ≠ pid := by
            intro hc; subst hc
            exact hlists anc v hv hp
          rw [alookup_ainsert_ne _ _ hpne]
          exact hcase
      · simp at hp
        subst hp
        right
        rw [alookup_ainsert_self]
    · rw [alookup_aupdate_ne _ _ ha] at hl
      rcases hinv.mem a l p hl hp with hcase | hcase
      · left; exact hcase
      · right
        have hpne : p ≠ pid := by
          intro hc; subst hc
          rw [hpm] at hcase
          exact Option.noConfusion hcase
        rw [alookup_ainsert_ne _ _ hpne]
        exact hcase
  · intro a l hl
    by_cases ha : a = anc
    · subst ha
      rw [alookup_aupdate_self, hv] at hl
      injection hl with hl2
      subst hl2
      rw [List.nodup_append]
      refine ⟨hinv.nodup anc v hv, List.nodup_singleton pid, ?_⟩
      intro p hp hp2
      simp at hp2
      subst hp2
      exact hlists anc v hv hp
    · rw [alookup_aupdate_ne _ _ ha] at hl
      exact hinv.nodup a l hl
  · intro a b l m p hl hm hpl hpm2
    by_cases ha : a = anc <;> by_cases hb : b = anc
    · rw [ha, hb]
    · subst ha
      rw [alookup_aupdate_self, hv] at hl
      injection hl with hl2
      subst hl2
      rw [alookup_aupdate_ne _ _ hb] at hm
      rw [List.mem_append] at hpl
      rcases hpl with hpl | hpl
      · exact hinv.cross anc b v m p hv hm hpl hpm2
      · simp at hpl
        subst hpl
        exact absurd hpm2 (hlists b m hm)
    · subst hb
      rw [alookup_aupdate_self, hv] at hm
      injection hm with hm2
      subst hm2
      rw [alookup_aupdate_ne _ _ ha] at hl
      rw [List.mem_append] at hpm2
      rcases hpm2 with hpm2 | hpm2
      · exact hinv.cross a anc l v p hl hv hpl hpm2
      · simp at hpm2
        subst hpm2
        exact absurd hpl (hlists a l hl)
    · rw [alookup_aupdate_ne _ _ ha] at hl
      rw [alookup_aupdate_ne _ _ hb] at hm
      exact hinv.cross a b l m p hl hm hpl hpm2

theorem inv_exit {r : Registry} (hinv : r.Inv) {pid : Nat}
    (hw : WfOp r (.exit pid)) {r' : Registry}
    (happ : r.apply (.exit pid) = some r') : r'.Inv := by
  have hanc : (alookup (pid_ancestorMap r.pmap pid) r.rpmap).isSome := hw
  set anc := pid_ancestorMap r.pmap pid with hancdef
  obtain ⟨v, hv⟩ : ∃ v, alookup anc r.rpmap = some v := by
    cases hx : alookup anc r.rpmap with
    | none => rw [hx] at hanc; simp at hanc
    | some v => exact ⟨v, rfl⟩
  have hr' : r' = { pmap := aerase pid r.pmap,
                    rpmap := aupdate anc (removeFirst pid v) r.rpmap } := by
    simp only [Registry.apply, noteExitMaps, ← hancdef, hv] at happ
    exact (Option.some.inj happ).symm
  subst hr'
  have hanc_eq : anc = (match alookup pid r.pmap with
      | some a => a | none => pid) := pid_ancestorMap_flat hinv.flat pid
  constructor
  · intro p a h
    by_cases hp : p = pid
    · subst hp
      rw [alookup_aerase_self] at h
      exact Option.noConfusion h
    · rw [alookup_aerase_ne _ hp] at h
      have hfa := hinv.flat p a h
      by_cases hapid : a = pid
      · subst hapid
        rw [alookup_aerase_self]
      · rw [alookup_aerase_ne _ hapid]
        exact hfa
  · intro p a h
    by_cases hp : p = pid
    · subst hp
      rw [alookup_aerase_self] at h
      exact Option.noConfusion h
    · rw [alookup_aerase_ne _ hp] at h
      rw [alookup_aupdate_isSome]
      exact hinv.anc_key p a h
  · intro a l p hl hp
    by_cases ha : a = anc
    · subst ha
      rw [alookup_aupdate_self, hv] at hl
      injection hl with hl2
      subst hl2
      have hpv : p ∈ v := removeFirst_subset hp
      rcases hinv.mem anc v p hv hpv with hcase | hcase
      · left; exact hcase
      · right
        have hpne : p ≠ pid := by
          intro hc; subst hc
          exact absurd hp (not_mem_removeFirst_self (hinv.nodup anc v hv))
        rw [alookup_aerase_ne _ hpne]
        exact hcase
    · rw [alookup_aupdate_ne _ _ ha] at hl
      rcases hinv.mem a l p hl hp with hcase | hcase
      · left; exact hcase
      · right
        have hpne : p ≠ pid := by
          intro hc; subst hc
          apply ha
          rw [hanc_eq, hcase]
        rw [alookup_aerase_ne _ hpne]
        exact hcase
  · intro a l hl
    by_cases ha : a = anc
    · subst ha
      rw [alookup_aupdate_self, hv] at hl
      injection hl with hl2
      subst hl2
      exact removeFirst_nodup (hinv.nodup anc v hv)
    · rw [alookup_aupdate_ne _ _ ha] at hl
      exact hinv.nodup a l hl
  · intro a b l m p hl hm hpl hpm2
    by_cases ha : a = anc <;> by_cases hb : b = anc
    · rw [ha, hb]
    · subst ha
      rw [alookup_aupdate_self, hv] at hl
      injection hl with hl2
      subst hl2
      rw [alookup_aupdate_ne _ _ hb] at hm
      exact hinv.cross anc b v m p hv hm (removeFirst_subset hpl) hpm2
    · subst hb
      rw [alookup_aupdate_self, hv] at hm
      injection hm with hm2
      subst hm2
      rw [alookup_aupdate_ne _ _ ha] at hl
      exact hinv.cross a anc l v p hl hv hpl (removeFirst_subset hpm2)
    · rw [alookup_aupdate_ne _ _ ha] at hl
      rw [alookup_aupdate_ne _ _ hb] at hm
      exact hinv.cross a b l m p hl hm hpl hpm2

theorem reachable_inv {r : Registry} (h : Registry.Reachable r) : r.Inv := by
  induction h with
  | init =>
    constructor
    · intro p a h2; simp [alookup] at h2
    · intro p a h2; simp [alookup] at h2
    · intro a l p hl hp; simp [alookup] at hl
    · intro a l hl; simp [alookup] at hl
    · intro a b l m p hl hm hpl hpm2; simp [alookup] at hl
  | step hre hwf happ ih =>
    rename_i r1 r2 op
    cases op with
    | register pid =>
      have heq : r2 = { r1 with rpmap := registerMaps r1.rpmap pid } := by
        simpa [Registry.apply] using happ.symm
      rw [heq]
      exact inv_register ih hwf
    | child parent pid => exact inv_child ih hwf happ
    | exit pid => exact inv_exit ih hwf happ


/-- C3: `SerialExec.try_drain_proc_queue` satisfies exactly the claimed
case analysis — not activated: `false` and no change; `last_spawn` set
and different from the exited id: `false` and no change; `last_spawn`
equal to the exited id with an empty queue: `true` (and no change);
otherwise with a non-empty queue: pop the head, mint `"<base>.<idx>"`,
bump the index, set `last_spawn` to the minted id, append the minted pair
to the outgoing queue, and return `false` — and in particular the id `""`
on an activated queue with `last_spawn = none` and pending specs
dispatches the first spec and returns `false`. -/
theorem claim_C3_try_drain_cases (s : SerialExec) (id : String)
    (next : List (String × Jexec)) :
    (s.activated = false → s.try_drain_proc_queue id next = (false, s, next)) ∧
    (∀ l, s.activated = true → s.last_spawn = some l → l ≠ id →
      s.try_drain_proc_queue id next = (false, s, next)) ∧
    (s.activated = true → s.last_spawn = some id → s.execs = [] →
      s.try_drain_proc_queue id next = (true, s, next)) ∧
    (∀ e rest, s.activated = true →
      (s.last_spawn = none ∨ s.last_spawn = some id) → s.execs = e :: rest →
      s.try_drain_proc_queue id next =
        (false,
         { s with execs := rest, last_spawn := some s.mint_id,
                  idx := s.idx + 1 },
         next ++ [(s.mint_id, e)])) ∧
    (∀ e rest, s.activated = true → s.last_spawn = none →
      s.execs = e :: rest →
      s.try_drain_proc_queue "" next =
        (false,
         { s with execs := rest, last_spawn := some s.mint_id,
                  idx := s.idx + 1 },
         next ++ [(s.mint_id, e)])) := by
  refine ⟨?_, ?_, ?_, ?_, ?_⟩
  · intro ha
    simp [SerialExec.try_drain_proc_queue, ha]
  · intro l ha hl hne
    simp [SerialExec.try_drain_proc_queue, ha, hl, hne]
  · intro ha hl he
    simp [SerialExec.try_drain_proc_queue, SerialExec.is_empty, ha, hl, he]
  · intro e rest ha hl he
    rcases hl with hl | hl
    · simp [SerialExec.try_drain_proc_queue, SerialExec.drainOne, ha, hl, he]
    · simp [SerialExec.try_drain_proc_queue, SerialExec.drainOne,
            SerialExec.is_empty, ha, hl, he]
  · intro e rest ha hl he
    simp [SerialExec.try_drain_proc_queue, SerialExec.drainOne, ha, hl, he]

/-- Witness for C3: a freshly activated deinit queue with one pending
spec and no `last_spawn` dispatches that spec under the id
`"deinit.0"`. -/
theorem claim_C3_witness :
    (SerialExec.new "deinit" [jexec0] true).try_drain_proc_queue "" [] =
      (false,
       { base_id := "deinit", idx := 1, execs := [],
         last_spawn := some "deinit.0", activated := true },
       [("deinit.0", jexec0)]) := by
  have h :=
    (claim_C3_try_drain_cases (SerialExec.new "deinit" [jexec0] true) "" []).2.2.2.2
      jexec0 [] rfl rfl rfl
  simpa [SerialExec.new, SerialExec.mint_id] using h

/-- C7 (code bug): the `run_main` control method sends the status-0 null
response only when `main_proto` is unset; when `main_proto` is set the
prototype is enqueued as `"main"` but no response at all is written,
although the spec promises `0` + null for every `run_main` request. -/
theorem claim_C7_run_main_response :
    runner0.handle_run_main =
      ({ runner0 with spawn_queue := [("main", jexec0)] }, none) ∧
    (ProcessRunner.new { container0 with main_proto := none } false).handle_run_main =
      (ProcessRunner.new { container0 with main_proto := none } false,
       some (0, RespBody.null)) := by
  constructor
  · rfl
  · rfl

/-- C8: `write_hosts` (when the path resolves and the truncate-or-create
open succeeds) replaces the file content with exactly the two fixed
localhost lines followed by one line per supplied entry in order, and the
status-0 null response is sent in every case. -/
theorem claim_C8_write_hosts (fs : HostsFs) (entries : List HostEntry)
    (hpath : fs.realpath_etc_hosts.isSome = true) (hopen : fs.open_ok = true) :
    handle_write_hosts fs entries =
      (some (hostsLines entries), 0, RespBody.null) ∧
    (hostsLines entries).take 2 = ["::1 localhost", "127.0.0.1 localhost"] ∧
    (hostsLines entries).drop 2 =
      entries.map (fun e => e.ip_addr ++ " " ++ e.hostname) ∧
    ∀ fs2 : HostsFs, (handle_write_hosts fs2 entries).2 = (0, RespBody.null) := by
  obtain ⟨p, hp⟩ := Option.isSome_iff_exists.mp hpath
  refine ⟨?_, rfl, rfl, fun fs2 => rfl⟩
  simp [handle_write_hosts, hp, hopen]

/-- Witness for C8 at a concrete entry list. -/
theorem claim_C8_witness :
    handle_write_hosts
      { realpath_etc_hosts := some "/jails/ct0/etc/hosts", open_ok := true }
      [{ ip_addr := "10.0.0.2", hostname := "web" }] =
      (some ["::1 localhost", "127.0.0.1 localhost", "10.0.0.2 web"],
       0, RespBody.null) := by
  have h := (claim_C8_write_hosts
      { realpath_etc_hosts := some "/jails/ct0/etc/hosts", open_ok := true }
      [{ ip_addr := "10.0.0.2", hostname := "web" }] rfl rfl).1
  simpa [hostsLines] using h

/-- C10: the `exec` control method panics (models: `none`) when the
request data does not parse as a `Jexec` or when its `notify` field is
absent; with a parsed spec carrying a notify descriptor it completes,
answering status 0 with the `SpawnInfo` on success and `EIO` with the
failure message otherwise. -/
theorem claim_C10_exec_requires_notify (s : ProcessRunner) (env : SpawnEnv)
    (gid : String) :
    (s.handle_exec env gid none = none) ∧
    (∀ j : Jexec, j.notify = none → s.handle_exec env gid (some j) = none) ∧
    (∀ j fd, j.notify = some fd →
      s.handle_exec env gid (some j) =
        some ((s.spawn_process env gid j (some fd)).runner,
          match (s.spawn_process env gid j (some fd)).result with
          | .ok si => (0, RespBody.spawnInfo si)
          | .error _ => (eioErrno, RespBody.failMessage "failed to spawn"))) := by
  refine ⟨rfl, ?_, ?_⟩
  · intro j hj
    simp [ProcessRunner.handle_exec, hj]
  · intro j fd hj
    simp only [ProcessRunner.handle_exec, hj]
    cases h : (s.spawn_process env gid j (some fd)).result with
    | ok si => simp [h]
    | error e => simp [h]

/-- Witness for C10: a parsed spec with notify descriptor 3 completes
the exec method. -/
theorem claim_C10_witness :
    (runner0.handle_exec envOk "g0" (some jexec1)).isSome = true := by
  rw [(claim_C10_exec_requires_notify runner0 envOk "g0").2.2 jexec1 3 rfl]
  rfl

/-- C9 (corrected): when the computed ancestor of a proc event has no
`rpmap` entry, `handle_pid_event` panics in every build — the NOTE_EXIT
arm through `unwrap`, the NOTE_CHILD arm through `expect` — rather than
logging and skipping the event; `none` models the panic. -/
theorem claim_C9_desync_panics (s : ProcessRunner) (ev : PidEvent)
    (ld : Option String) :
    (ev.note_exit = true →
      alookup (pid_ancestorMap s.pmap ev.ident) s.rpmap = none →
      s.handle_pid_event ev ld = none) ∧
    (ev.note_exit = false → ev.note_child = true →
      alookup (pid_ancestorMap s.pmap ev.data.toNat) s.rpmap = none →
      s.handle_pid_event ev ld = none) := by
  constructor
  · intro hx hmiss
    simp [ProcessRunner.handle_pid_event, noteExitMaps, hx, hmiss]
  · intro hx hc hmiss
    simp [ProcessRunner.handle_pid_event, noteChildMaps, hx, hc, hmiss]

/-- Counterexample for C9: a NOTE_EXIT for the untracked pid 42 on a
fresh supervisor makes `handle_pid_event` panic (`none`); the event is
not skipped and the loop does not keep running. -/
theorem claim_C9_counterexample :
    runner0.handle_pid_event evUntracked none = none := rfl

/-- Witness for C9 at the untracked-pid event. -/
theorem claim_C9_witness :
    runnerPersist.handle_pid_event evUntracked none = none :=
  (claim_C9_desync_panics runnerPersist evUntracked none).1 rfl rfl

/-- C2 (corrected): a failing `spawn_process` fires the supplied notify
only on the stdio/spawn I/O failure path; `ExecutableNotFound`,
`MissingLinuxKmod` and `BrandELFFailed` return without firing it. On
every failure the supervisor state is unchanged and the `ProcessStat` of
the call never advances past the spec-only record (it is not even
created when resolution fails). -/
theorem claim_C2_spawn_failure (s : ProcessRunner) (env : SpawnEnv)
    (id : String) (exec : Jexec) (notify : Option Nat) (e : ExecError)
    (h : (s.spawn_process env id exec notify).result = .error e) :
    (s.spawn_process env id exec notify).notified =
      (e.isSpawnIo && notify.isSome) ∧
    (s.spawn_process env id exec notify).runner = s ∧
    ((s.spawn_process env id exec notify).stat = none ∨
      (s.spawn_process env id exec notify).stat =
        some (ProcessStat.new exec)) := by
  cases hfe : env.find_exec with
  | none =>
    simp [ProcessRunner.spawn_process, hfe] at h ⊢
    subst h
    simp [ExecError.isSpawnIo]
  | some p =>
    by_cases hml : s.container.linux = true ∧ env.exists_kld_linux = false ∧
        env.exists_kld_linux64 = false
    · simp [ProcessRunner.spawn_process, hfe, hml] at h ⊢
      subst h
      simp [ExecError.isSpawnIo]
    · cases hbr : (if s.container.linux then env.brand_elf else Except.ok ()) with
      | error ec =>
        simp [ProcessRunner.spawn_process, hfe, hml, hbr] at h ⊢
        subst h
        simp [ExecError.isSpawnIo]
      | ok u =>
        cases hio : env.spawn_io with
        | error ec =>
          simp [ProcessRunner.spawn_process, hfe, hml, hbr, hio] at h ⊢
          subst h
          simp [ExecError.isSpawnIo]
        | ok si =>
          simp [ProcessRunner.spawn_process, hfe, hml, hbr, hio] at h

/-- Counterexample for C2: `ExecutableNotFound` with a notify supplied
returns the error without firing the notify. -/
theorem claim_C2_counterexample :
    (runner0.spawn_process envNotFound "x" jexec0 (some 9)).result =
      Except.error ExecError.executableNotFound ∧
    (runner0.spawn_process envNotFound "x" jexec0 (some 9)).notified = false :=
  ⟨rfl, rfl⟩

/-- Witness for C2 at the not-found environment. -/
theorem claim_C2_witness :
    (runner0.spawn_process envNotFound "x" jexec0 (some 9)).notified =
      (ExecError.executableNotFound.isSpawnIo && (some 9 : Option Nat).isSome) :=
  (claim_C2_spawn_failure runner0 envNotFound "x" jexec0 (some 9)
    .executableNotFound rfl).1

theorem start_of_started {s : ProcessRunner} {t : Nat}
    (h : s.started = some t) (env : SpawnEnv) (now : Nat) :
    s.start env now = s := by
  simp [ProcessRunner.start, h]

theorem run_main_started (s : ProcessRunner) :
    s.run_main.started = s.started := by
  cases h : s.container.main_proto with
  | none => simp [ProcessRunner.run_main, h]
  | some m => simp [ProcessRunner.run_main, h]

theorem spawn_process_started (s : ProcessRunner) (env : SpawnEnv)
    (id : String) (exec : Jexec) (notify : Option Nat) :
    (s.spawn_process env id exec notify).runner.started = s.started := by
  cases hfe : env.find_exec with
  | none => simp [ProcessRunner.spawn_process, hfe]
  | some p =>
    by_cases hml : s.container.linux = true ∧ env.exists_kld_linux = false ∧
        env.exists_kld_linux64 = false
    · simp [ProcessRunner.spawn_process, hfe, hml]
    · cases hbr : (if s.container.linux then env.brand_elf else Except.ok ()) with
      | error ec => simp [ProcessRunner.spawn_process, hfe, hml, hbr]
      | ok u =>
        cases hio : env.spawn_io with
        | error ec => simp [ProcessRunner.spawn_process, hfe, hml, hbr, hio]
        | ok si => simp [ProcessRunner.spawn_process, hfe, hml, hbr, hio]

theorem start_sets_started {s : ProcessRunner} (h0 : s.started = none)
    (env : SpawnEnv) (now : Nat) : (s.start env now).started = some now := by
  rw [ProcessRunner.start]
  simp only [h0, Option.isNone_none, if_true]
  split
  · rw [run_main_started]
  · split
    · rw [spawn_process_started]
    · rfl

theorem foldl_start_noop (calls : List (SpawnEnv × Nat)) {s : ProcessRunner}
    {t : Nat} (h : s.started = some t) :
    calls.foldl (fun s c => s.start c.1 c.2) s = s := by
  induction calls with
  | nil => rfl
  | cons c cs ih =>
    rw [List.foldl_cons, start_of_started h c.1 c.2]
    exact ih

/-- C4: over any sequence of `start` calls, `started` is assigned exactly
by the first call (to the sampled epoch seconds) and never cleared; each
later call changes nothing at all. The first call enqueues main when the
init queue is empty and main is not suppressed, directly spawns the first
init spec (activating the init queue) when the queue is non-empty, and
otherwise only records `started`. -/
theorem claim_C4_started_once (s0 : ProcessRunner) (env : SpawnEnv) (now : Nat)
    (calls : List (SpawnEnv × Nat)) (h0 : s0.started = none) :
    (s0.start env now).started = some now ∧
    calls.foldl (fun s c => s.start c.1 c.2) (s0.start env now) =
      s0.start env now ∧
    (∀ (t : Nat) (env2 : SpawnEnv) (now2 : Nat) (s : ProcessRunner),
      s.started = some t → s.start env2 now2 = s) ∧
    (s0.inits.is_empty = true → s0.container.main_norun = false →
      s0.start env now = ProcessRunner.run_main { s0 with started := some now }) ∧
    (∀ e rest, s0.inits.execs = e :: rest →
      s0.start env now =
        ({ s0 with started := some now,
                   inits := SerialExec.activate
                     { s0.inits with
                       execs := rest,
                       last_spawn := some s0.inits.mint_id,
                       idx := s0.inits.idx + 1 } }.spawn_process env
            s0.inits.mint_id e none).runner) ∧
    (s0.inits.is_empty = true → s0.container.main_norun = true →
      s0.start env now = { s0 with started := some now }) := by
  refine ⟨start_sets_started h0 env now,
          foldl_start_noop calls (start_sets_started h0 env now),
          fun t env2 now2 s h => start_of_started h env2 now2, ?_, ?_, ?_⟩
  · intro hempty hnorun
    simp [ProcessRunner.start, h0, hempty, hnorun]
  · intro e rest he
    have hne : s0.inits.is_empty = false := by
      simp [SerialExec.is_empty, he]
    simp [ProcessRunner.start, h0, hne, SerialExec.pop_front, he]
  · intro hempty hnorun
    have hnil : s0.inits.execs = [] := by
      simpa [SerialExec.is_empty, List.isEmpty_iff] using hempty
    simp [ProcessRunner.start, h0, hempty, hnorun, SerialExec.pop_front, hnil]

/-- Witness for C4: a first `start` on the fresh fixture records epoch
second 42, and a subsequent call is the identity on the result. -/
theorem claim_C4_witness :
    (runner0.start envOk 42).started = some 42 ∧
    [((envOk : SpawnEnv), 43)].foldl (fun s c => s.start c.1 c.2)
        (runner0.start envOk 42) = runner0.start envOk 42 :=
  ⟨(claim_C4_started_once runner0 envOk 42 [(envOk, 43)] rfl).1,
   (claim_C4_started_once runner0 envOk 42 [(envOk, 43)] rfl).2.1⟩

theorem try_drain_fst_true {s : SerialExec} {id : String}
    {next : List (String × Jexec)}
    (h : (s.try_drain_proc_queue id next).1 = true) :
    s.try_drain_proc_queue id next = (true, s, next) := by
  by_cases ha : s.activated = true
  · cases hl : s.last_spawn with
    | none =>
      rcases hdo : s.drainOne next with ⟨s2, n2⟩
      simp [SerialExec.try_drain_proc_queue, ha, hl, hdo] at h
    | some l =>
      by_cases hne : l ≠ id
      · simp [SerialExec.try_drain_proc_queue, ha, hl, hne] at h
      · by_cases hemp : s.is_empty = true
        · simp only [ne_eq, not_not] at hne
          subst hne
          simp [SerialExec.try_drain_proc_queue, ha, hl, hemp]
        · rcases hdo : s.drainOne next with ⟨s2, n2⟩
          simp [SerialExec.try_drain_proc_queue, ha, hl, hne, hemp, hdo] at h
  · simp [SerialExec.try_drain_proc_queue, ha] at h

theorem exitScanPhase1_drained {container : RunningContainer} {code : Int}
    {acc : ExitScan} {stat : ProcessRunnerStat}
    (hinit : acc.inits.try_drain_proc_queue stat.id acc.spawn_queue =
      (false, acc.inits, acc.spawn_queue))
    (hdrain : (acc.deinits.try_drain_proc_queue stat.id acc.spawn_queue).1 =
      true) :
    exitScanPhase1 container code acc stat =
      (stat.set_exited code,
       { acc with last_deinit := acc.deinits.last_spawn,
                  klog := acc.klog ++ [KEventReg.timerOneshot 1486 15] }) := by
  have hd := try_drain_fst_true hdrain
  simp [exitScanPhase1, ProcessRunnerStat.set_exited, hinit, hd]

theorem exitScanPhase2_ld_klog (container : RunningContainer) (gone : Bool)
    (acc : ExitScan) (stat : ProcessRunnerStat) :
    (exitScanPhase2 container gone acc stat).1.last_deinit = acc.last_deinit ∧
    (exitScanPhase2 container gone acc stat).1.klog = acc.klog := by
  simp only [exitScanPhase2]
  split
  · split
    · split
      · exact ⟨rfl, rfl⟩
      · rcases htd : acc.deinits.activate.try_drain_proc_queue ""
          acc.spawn_queue with ⟨b2, d2, q2⟩
        simp [htd]
    · split
      · split
        · exact ⟨rfl, rfl⟩
        · exact ⟨rfl, rfl⟩
      · exact ⟨rfl, rfl⟩
  · exact ⟨rfl, rfl⟩

/-- C5: in the NOTE_EXIT loop body, when the deinit queue's `try_drain`
reports drained on the exiting direct child (queue empty, `last_spawn`
equal to the exiting id), the output `last_deinit` is set to the queue's
`last_spawn` and the one-shot 15-second timer with ident 1486 is armed on
the kernel queue; and a delivered timer event makes the event-loop
dispatch report the break flag, so the loop terminates and proceeds to
cleanup. -/
theorem claim_C5_deinit_grace (container : RunningContainer) (ancestor : Nat)
    (code : Int) (gone : Bool) (acc : ExitScan) (stat : ProcessRunnerStat)
    (hpid : stat.pid = ancestor)
    (hinit : acc.inits.try_drain_proc_queue stat.id acc.spawn_queue =
      (false, acc.inits, acc.spawn_queue))
    (hdrain : (acc.deinits.try_drain_proc_queue stat.id acc.spawn_queue).1 =
      true) :
    ((exitScanStep container ancestor ancestor code gone acc stat).1.last_deinit =
        acc.deinits.last_spawn ∧
     (exitScanStep container ancestor ancestor code gone acc stat).1.klog =
        acc.klog ++ [KEventReg.timerOneshot 1486 15]) ∧
    ∀ (s : ProcessRunner) (ld : Option String),
      dispatch_event s ld LoopEvent.timer = some (s, ld, true) := by
  refine ⟨?_, fun s ld => rfl⟩
  have h1 := @exitScanPhase1_drained container code acc stat hinit hdrain
  have h2 := exitScanPhase2_ld_klog container gone
    { acc with last_deinit := acc.deinits.last_spawn,
               klog := acc.klog ++ [KEventReg.timerOneshot 1486 15] }
    (stat.set_exited code)
  simp only [exitScanStep, hpid, eq_self_iff_true, ite_true, if_true, h1]
  exact ⟨h2.1, h2.2⟩

/-- Witness for C5: the concrete drained deinit queue records
`last_deinit = "deinit.0"` and arms the 15-second timer. -/
theorem claim_C5_witness :
    (exitScanStep containerPersist 9 9 0 true accDeinit statDeinit).1.last_deinit =
      some "deinit.0" ∧
    (exitScanStep containerPersist 9 9 0 true accDeinit statDeinit).1.klog =
      [KEventReg.timerOneshot 1486 15] := by
  have h := (claim_C5_deinit_grace containerPersist 9 0 true accDeinit statDeinit
    rfl rfl rfl).1
  simpa [accDeinit] using h

theorem try_drain_not_activated {s : SerialExec} (h : s.activated = false)
    (id : String) (next : List (String × Jexec)) :
    s.try_drain_proc_queue id next = (false, s, next) := by
  simp [SerialExec.try_drain_proc_queue, h]

theorem exitScanPhase1_noop {container : RunningContainer} {code : Int}
    {acc : ExitScan} {stat : ProcessRunnerStat}
    (hinit : acc.inits.try_drain_proc_queue stat.id acc.spawn_queue =
      (false, acc.inits, acc.spawn_queue))
    (hda : acc.deinits.activated = false) :
    exitScanPhase1 container code acc stat = (stat.set_exited code, acc) := by
  simp [exitScanPhase1, ProcessRunnerStat.set_exited, hinit,
        try_drain_not_activated hda]

theorem drainOne_activated (s : SerialExec) (next : List (String × Jexec)) :
    (s.drainOne next).1.activated = s.activated := by
  rcases s with ⟨b, i, execs, ls, act⟩
  cases execs <;> rfl

theorem try_drain_activated (s : SerialExec) (id : String)
    (next : List (String × Jexec)) :
    (s.try_drain_proc_queue id next).2.1.activated = s.activated := by
  rcases hdo : s.drainOne next with ⟨s2, n2⟩
  have hact : s2.activated = s.activated := by
    have h2 := drainOne_activated s next
    rw [hdo] at h2
    exact h2
  by_cases ha : s.activated = true
  · cases hl : s.last_spawn with
    | none => simp [SerialExec.try_drain_proc_queue, ha, hl, hdo, hact]
    | some l =>
      by_cases hne : l ≠ id
      · simp [SerialExec.try_drain_proc_queue, ha, hl, hne]
      · by_cases hemp : s.is_empty = true
        · simp only [ne_eq, not_not] at hne
          subst hne
          simp [SerialExec.try_drain_proc_queue, ha, hl, hemp]
        · simp [SerialExec.try_drain_proc_queue, ha, hl, hne, hemp, hdo, hact]
  · simp [SerialExec.try_drain_proc_queue, ha]

/-- C1 (corrected): on tree-exit of the named process `"main"`,
`main_exited` is set; the event loop breaks exactly when deinit is
suppressed or the deinit queue empty and `persist` is false; in every
other case — including whenever `persist` is true — the deinit queue IS
activated and `try_drain("")` dispatches its first element into the
spawn queue. (The claim's reading that a true `persist` prevents the
activation is refuted by `claim_C1_persist_activates`.) -/
theorem claim_C1_main_tree_exit (container : RunningContainer) (p : Nat)
    (st : ProcessStat) (ntf : Option Nat) (nfd : Bool)
    (inits deinits : SerialExec) (sq : List (String × Jexec))
    (started : Option Nat) (auto ms me : Bool) (klog : List KEventReg)
    (code : Int)
    (hda : deinits.activated = false)
    (hinit : inits.try_drain_proc_queue "main" sq = (false, inits, sq)) :
    ∀ s' ld brk,
      ProcessRunner.handle_pid_event
        { named_process := [{ id := "main", pid := p, process_stat := st,
                              notify := ntf, notified := nfd }],
          pmap := [], rpmap := [(p, [p])], started := started,
          auto_start := auto, container := container, main_started := ms,
          main_exited := me, spawn_queue := sq, inits := inits,
          deinits := deinits, kevent_log := klog }
        { note_exit := true, note_child := false, ident := p, data := code }
        none = some (s', ld, brk) →
      s'.main_exited = true ∧
      ld = none ∧
      ((container.deinit_norun = true ∨ deinits.is_empty = true) ∧
          container.persist = false →
        brk = true ∧ s'.deinits = deinits ∧ s'.spawn_queue = sq) ∧
      (¬((container.deinit_norun = true ∨ deinits.is_empty = true) ∧
          container.persist = false) →
        brk = false ∧ s'.deinits.activated = true ∧
        (s'.deinits, s'.spawn_queue) =
          (deinits.activate.try_drain_proc_queue "" sq).2) ∧
      (container.persist = true → s'.deinits.activated = true ∧ brk = false) := by
  intro s' ld brk h
  have hmaps : noteExitMaps ([] : List (Nat × Nat)) [(p, [p])] p =
      some ([], [(p, ([] : List Nat))], p, true) := by
    simp [noteExitMaps, pid_ancestorMap, pid_ancestorFuel, alookup, aerase,
          aupdate, removeFirst]
  have h1 : exitScanPhase1 container code
      { stats := [], spawn_queue := sq, inits := inits, deinits := deinits,
        main_exited := me, last_deinit := none, klog := klog }
      { id := "main", pid := p, process_stat := st, notify := ntf,
        notified := nfd } =
      (ProcessRunnerStat.set_exited
        { id := "main", pid := p, process_stat := st, notify := ntf,
          notified := nfd } code,
       { stats := [], spawn_queue := sq, inits := inits, deinits := deinits,
         main_exited := me, last_deinit := none, klog := klog }) :=
    exitScanPhase1_noop hinit hda
  by_cases hC : (container.deinit_norun = true ∨ deinits.is_empty = true) ∧
      ¬container.persist = true
  · simp only [ProcessRunner.handle_pid_event, hmaps, exitScan, exitScanStep,
      exitScanPhase2, ProcessRunnerStat.set_exited,
      ProcessRunnerStat.set_tree_exited, h1, hC, eq_self_iff_true, if_true,
      ite_true, or_true, true_or, and_true, true_and, List.append_nil,
      List.nil_append, Option.some.injEq, Prod.mk.injEq] at h
    obtain ⟨hs, hld, hbrk⟩ := h
    subst hs
    subst hld
    subst hbrk
    have hp2 : container.persist = false := by
      cases hcp : container.persist
      · rfl
      · exact absurd hcp hC.2
    refine ⟨rfl, rfl, fun _ => ⟨rfl, rfl, rfl⟩, fun hn => absurd ⟨hC.1, hp2⟩ hn,
            fun hp => absurd hp hC.2⟩
  · rcases htd : deinits.activate.try_drain_proc_queue "" sq with ⟨b2, d2, q2⟩
    simp only [ProcessRunner.handle_pid_event, hmaps, exitScan, exitScanStep,
      exitScanPhase2, ProcessRunnerStat.set_exited,
      ProcessRunnerStat.set_tree_exited, h1, hC, eq_self_iff_true, if_true,
      ite_true, if_false, ite_false, or_true, true_or, and_true, true_and,
      List.append_nil, List.nil_append, htd, Option.some.injEq,
      Prod.mk.injEq] at h
    obtain ⟨hs, hld, hbrk⟩ := h
    subst hs
    subst hld
    subst hbrk
    have hact : d2.activated = true := by
      have hta := try_drain_activated deinits.activate "" sq
      rw [htd] at hta
      simpa [SerialExec.activate] using hta
    refine ⟨rfl, rfl, ?_, fun _ => ⟨rfl, hact, ?_⟩, fun hp => ⟨hact, rfl⟩⟩
    · intro hcc
      exact absurd ⟨hcc.1, by simp [hcc.2]⟩ hC
    · simp only [htd]
      rfl

/-- Counterexample for C1: with `persist = true` (deinit not suppressed,
one pending deinit spec) the tree-exit of main does NOT leave the deinit
queue dormant — the handler activates it, dispatches `"deinit.0"`, and
does not break the loop. -/
theorem claim_C1_persist_activates :
    ((runnerPersist.handle_pid_event evMainExit none).map
      (fun r => (r.1.deinits.activated, r.1.main_exited, r.2.2))) =
      some (true, true, false) ∧
    runnerPersist.container.persist = true ∧
    runnerPersist.container.deinit_norun = false ∧
    runnerPersist.deinits.is_empty = false := by
  refine ⟨?_, rfl, rfl, rfl⟩
  rfl

/-- Witness for C1 at the persist fixture: applying the amended theorem
at the concrete post-state shows main recorded as exited and the deinit
queue activated. -/
theorem claim_C1_witness :
    runnerPersistAfter.main_exited = true ∧
    runnerPersistAfter.deinits.activated = true :=
  ⟨(claim_C1_main_tree_exit containerPersist 5 (ProcessStat.new jexec0) none
      false (SerialExec.new "init" [] true)
      (SerialExec.new "deinit" [jexec0] false) [] (some 1) false true false []
      0 rfl rfl runnerPersistAfter none false rfl).1,
   ((claim_C1_main_tree_exit containerPersist 5 (ProcessStat.new jexec0) none
      false (SerialExec.new "init" [] true)
      (SerialExec.new "deinit" [jexec0] false) [] (some 1) false true false []
      0 rfl rfl runnerPersistAfter none false rfl).2.2.2.2 rfl).1⟩


/-- C6: in every registry state reachable through well-formed
registrations, NOTE_CHILD handling and NOTE_EXIT removals, every pid in a
tree list `rpmap[a]` either equals `a` or maps to `a` directly in `pmap`
with `a` itself unmapped — the chain has length at most one, since
NOTE_CHILD stores the computed ancestor directly — and consequently the
ancestor climb `pid_ancestor` needs a single lookup: any fuel of at least
one returns the same answer. -/
theorem claim_C6_registry_flattening {r : Registry} (h : Registry.Reachable r) :
    (∀ a l p, alookup a r.rpmap = some l → p ∈ l →
      p = a ∨ (alookup p r.pmap = some a ∧ alookup a r.pmap = none)) ∧
    (∀ (p fuel : Nat), 1 ≤ fuel →
      pid_ancestorFuel fuel r.pmap p =
        (match alookup p r.pmap with | some a => a | none => p)) := by
  have hinv := reachable_inv h
  constructor
  · intro a l p hl hp
    rcases hinv.mem a l p hl hp with hc | hc
    · left
      exact hc
    · right
      exact ⟨hc, hinv.flat p a hc⟩
  · intro p fuel hf
    exact pid_ancestorFuel_flat hinv.flat p hf

/-- Witness for C6: after registering pid 10 and handling NOTE_CHILD of
pid 11 under it, pid 11 in the tree list of 10 maps directly to 10. -/
theorem claim_C6_witness :
    (11 : Nat) = 10 ∨
    (alookup (11 : Nat) [((11 : Nat), (10 : Nat))] = some 10 ∧
     alookup (10 : Nat) [((11 : Nat), (10 : Nat))] = none) := by
  have wf1 : WfOp { pmap := [], rpmap := [] } (.register 10) := by
    refine ⟨rfl, ?_⟩
    intro a l h2
    simp [alookup] at h2
  have wf2 : WfOp { pmap := [], rpmap := [(10, [10])] } (.child 10 11) := by
    refine ⟨rfl, rfl, ?_, rfl⟩
    intro a l h2
    simp only [alookup] at h2
    split at h2
    · cases h2
      decide
    · exact Option.noConfusion h2
  have hreach : Registry.Reachable
      { pmap := [(11, 10)], rpmap := [(10, [10, 11])] } :=
    Registry.Reachable.step
      (Registry.Reachable.step Registry.Reachable.init wf1 rfl) wf2 rfl
  exact (claim_C6_registry_flattening hreach).1 10 [10, 11] 11 rfl (by decide)

end XC
